import Mathlib

/-!
Shallow embedding of the chat backend's data model and state-machine
operations: the Conversation / Room / Message mongoose schema methods
(src/backend/src/auth/google.js conversation section,
src/backend/src/models/Message.js message and room sections) and the
socket gateway's message:send:conversation handler (src/unnamed/part_000).

Document ids (mongoose ObjectId) are embedded as Nat; Date values as Nat
timestamps; mongoose `doc.save()` persistence is modelled by returning the
updated record (and, where a claim is about store contents, by replacing
the record in an explicit list-based store).  Methods that can `throw` or
reject return `Except String` carrying the source's exact error message.
-/

namespace Chat

/-- Replace the first element of a list satisfying `p` by its image under
`f`, leaving the rest unchanged.  This models JavaScript
`arr.find(p)` followed by in-place mutation of the found element. -/
def updateFirst (p : α → Bool) (f : α → α) : List α → List α
  | [] => []
  | x :: xs => if p x then f x :: xs else x :: updateFirst p f xs

/-- One entry of `conversationSchema.unreadCount`: `{ user, count }`. -/
structure UnreadEntry where
  user : Nat
  count : Nat
deriving DecidableEq, Repr

/-- One entry of `conversationSchema.isArchived`: `{ user, archived }`. -/
structure ArchivedEntry where
  user : Nat
  archived : Bool
deriving DecidableEq, Repr

/-- One entry of `conversationSchema.isPinned`: `{ user, pinned }`. -/
structure PinnedEntry where
  user : Nat
  pinned : Bool
deriving DecidableEq, Repr

/-- A Conversation document (conversationSchema in google.js). -/
structure Conversation where
  id : Nat
  participants : List Nat
  lastMessage : Option Nat
  lastMessageAt : Nat
  unreadCount : List UnreadEntry
  isArchived : List ArchivedEntry
  isPinned : List PinnedEntry
  typingUsers : List Nat
deriving DecidableEq, Repr

/-- The conversationSchema pre-save hook: rejects a participant count other
than 2, and on a new document initializes the three per-participant
derived-state arrays from the participants list. -/
def conversationPreSave (isNew : Bool) (c : Conversation) : Except String Conversation :=
  if c.participants.length ≠ 2 then
    .error "Conversation must have exactly 2 participants"
  else if isNew then
    .ok { c with
      unreadCount := c.participants.map fun userId => { user := userId, count := 0 },
      isArchived := c.participants.map fun userId => { user := userId, archived := false },
      isPinned := c.participants.map fun userId => { user := userId, pinned := false } }
  else
    .ok c

/-- Embeds `Conversation.create({ participants })`: a fresh document with schema
defaults, passed through the pre-save hook with `isNew = true`. -/
def Conversation.create (newId : Nat) (now : Nat) (participants : List Nat) :
    Except String Conversation :=
  conversationPreSave true
    { id := newId, participants := participants, lastMessage := none,
      lastMessageAt := now, unreadCount := [], isArchived := [],
      isPinned := [], typingUsers := [] }

/-- Embeds `[user1Id, user2Id].sort()`: the two ids in canonical (ascending) order. -/
def jsSortPair (a b : Nat) : List Nat :=
  if a ≤ b then [a, b] else [b, a]

/-- The findOrCreate lookup filter
`{ participants: { $all: participants, $size: 2 } }`. -/
def matchesPair (ps : List Nat) (c : Conversation) : Bool :=
  c.participants.length == 2 && ps.all fun p => c.participants.contains p

/-- The Conversation collection: stored documents plus the next fresh id. -/
structure ConvStore where
  convs : List Conversation
  nextId : Nat
deriving DecidableEq, Repr

/-- Embeds `conversationSchema.statics.findOrCreate(user1Id, user2Id)`: canonicalize
the pair, look an existing conversation up, create one if absent. -/
def Conversation.findOrCreate (s : ConvStore) (now : Nat) (user1Id user2Id : Nat) :
    Except String (Conversation × ConvStore) :=
  let participants := jsSortPair user1Id user2Id
  match s.convs.find? (matchesPair participants) with
  | some conversation => .ok (conversation, s)
  | none =>
    match Conversation.create s.nextId now participants with
    | .ok conversation =>
        .ok (conversation, { convs := s.convs ++ [conversation], nextId := s.nextId + 1 })
    | .error e => .error e

/-- Embeds `conversationSchema.methods.updateLastMessage(messageId)`. -/
def Conversation.updateLastMessage (c : Conversation) (messageId : Nat) (now : Nat) :
    Conversation :=
  { c with lastMessage := some messageId, lastMessageAt := now }

/-- Embeds `conversationSchema.methods.incrementUnread(userId)`: bump the found
entry's count, or push `{ user: userId, count: 1 }`. -/
def Conversation.incrementUnread (c : Conversation) (userId : Nat) : Conversation :=
  match c.unreadCount.find? (fun u => u.user == userId) with
  | some _ =>
      let bump : UnreadEntry → UnreadEntry := fun u => { u with count := u.count + 1 }
      { c with unreadCount := updateFirst (fun u => u.user == userId) bump c.unreadCount }
  | none => { c with unreadCount := c.unreadCount ++ [{ user := userId, count := 1 }] }

/-- Embeds `conversationSchema.methods.resetUnread(userId)`: zero the found entry's
count; no entry means no change. -/
def Conversation.resetUnread (c : Conversation) (userId : Nat) : Conversation :=
  let zero : UnreadEntry → UnreadEntry := fun u => { u with count := 0 }
  { c with unreadCount := updateFirst (fun u => u.user == userId) zero c.unreadCount }

/-- Embeds `conversationSchema.methods.getUnreadCount(userId)`: the found entry's
count, else 0. -/
def Conversation.getUnreadCount (c : Conversation) (userId : Nat) : Nat :=
  match c.unreadCount.find? (fun u => u.user == userId) with
  | some u => u.count
  | none => 0

/-- Embeds `conversationSchema.methods.isArchivedForUser(userId)`. -/
def Conversation.isArchivedForUser (c : Conversation) (userId : Nat) : Bool :=
  match c.isArchived.find? (fun a => a.user == userId) with
  | some a => a.archived
  | none => false

/-- Embeds `conversationSchema.methods.isPinnedForUser(userId)`. -/
def Conversation.isPinnedForUser (c : Conversation) (userId : Nat) : Bool :=
  match c.isPinned.find? (fun p => p.user == userId) with
  | some p => p.pinned
  | none => false

/-- One entry of `messageSchema.readBy`: `{ user, readAt }`. -/
structure ReadEntry where
  user : Nat
  readAt : Nat
deriving DecidableEq, Repr

/-- A Message document (messageSchema in Message.js). -/
structure Message where
  id : Nat
  sender : Nat
  conversation : Nat
  content : String
  messageType : String
  readBy : List ReadEntry
  isEdited : Bool
  editedAt : Option Nat
  isDeleted : Bool
  deletedAt : Option Nat
  replyTo : Option Nat
  createdAt : Nat
deriving DecidableEq, Repr

/-- Embeds `messageSchema.methods.markAsRead(userId)`: push a `{ user, readAt }`
entry unless one for this user is already present. -/
def Message.markAsRead (m : Message) (userId : Nat) (now : Nat) : Message :=
  if m.readBy.any (fun r => r.user == userId) then m
  else { m with readBy := m.readBy ++ [{ user := userId, readAt := now }] }

/-- Number of read entries a given user has in a message's read list
(the measure the read-receipt claims are stated in). -/
def Message.readEntriesFor (m : Message) (userId : Nat) : Nat :=
  (m.readBy.filter (fun r => r.user == userId)).length

/-- Embeds `messageSchema.methods.softDelete()`: set the deleted flag and
timestamp and replace the content with the fixed tombstone. -/
def Message.softDelete (m : Message) (now : Nat) : Message :=
  { m with isDeleted := true, deletedAt := some now,
           content := "This message was deleted" }

/-- Embeds `messageSchema.statics.getRecentMessages(conversationId, limit = 50)`:
non-deleted messages of the conversation, newest first, capped at `limit`. -/
def Message.getRecentMessages (store : List Message) (conversationId : Nat)
    (limit : Nat := 50) : List Message :=
  ((store.filter fun m => m.conversation == conversationId && m.isDeleted == false).mergeSort
      (fun a b => b.createdAt ≤ a.createdAt)).take limit

/-- Embeds `Message.findById(id)`: fetch a document by id, with no deleted filter
(this is how a `replyTo` reference is resolved). -/
def Message.findById (store : List Message) (id : Nat) : Option Message :=
  store.find? (fun m => m.id == id)

/-- Persisting `message.save()` into a list-based store: the stored document
with this id is replaced by its updated value. -/
def saveMessage (store : List Message) (id : Nat) (f : Message → Message) :
    List Message :=
  updateFirst (fun m => m.id == id) f store

/-- One entry of `roomSchema.members`: `{ user, role, joinedAt }`. -/
structure Member where
  user : Nat
  role : String
  joinedAt : Nat
deriving DecidableEq, Repr

/-- A Room document (roomSchema in Message.js). -/
structure Room where
  id : Nat
  name : String
  createdBy : Nat
  isPrivate : Bool
  inviteCode : Option String
  members : List Member
  maxMembers : Nat
  isActive : Bool
  lastActivity : Nat
deriving DecidableEq, Repr

/-- Embeds `roomSchema.methods.isMember(userId)`. -/
def Room.isMember (r : Room) (userId : Nat) : Bool :=
  r.members.any (fun m => m.user == userId)

/-- Embeds `roomSchema.methods.addMember(userId, role = "member")`: throws on an
existing member or a full room, otherwise pushes the new member. -/
def Room.addMember (r : Room) (userId : Nat) (role : String) (now : Nat) :
    Except String Room :=
  if r.members.any (fun m => m.user == userId) then
    .error "User is already a member of this room"
  else if r.members.length ≥ r.maxMembers then
    .error "Room has reached maximum capacity"
  else
    .ok { r with members := r.members ++ [{ user := userId, role := role, joinedAt := now }] }

/-- Embeds `roomSchema.methods.removeMember(userId)`: filter the member out and
save; there is no membership check, so it always succeeds. -/
def Room.removeMember (r : Room) (userId : Nat) : Except String Room :=
  .ok { r with members := r.members.filter (fun m => m.user != userId) }

/-- Embeds `roomSchema.methods.updateMemberRole(userId, newRole)`: throws when the
user is not a member, otherwise mutates the found member's role. -/
def Room.updateMemberRole (r : Room) (userId : Nat) (newRole : String) :
    Except String Room :=
  match r.members.find? (fun m => m.user == userId) with
  | none => .error "User is not a member of this room"
  | some _ =>
      let setRole : Member → Member := fun m => { m with role := newRole }
      .ok { r with members := updateFirst (fun m => m.user == userId) setRole r.members }

/-- The invite-code alphabet `"ABCDEFGHIJKLMNOPQRSTUVWXYZ0123456789"`. -/
def inviteChars : List Char :=
  "ABCDEFGHIJKLMNOPQRSTUVWXYZ0123456789".data

/-- Embeds `roomSchema.methods.generateInviteCode()`: eight characters, each
`chars.charAt(Math.floor(Math.random() * chars.length))`; the random draw
`Math.floor(Math.random() * 36)` is embedded as an arbitrary stream of
values below 36. -/
def generateInviteCode (rand : Nat → Fin 36) : String :=
  ⟨(List.range 8).map fun i => inviteChars.getD (rand i).val 'A'⟩

/-- Gateway state seen by the message:send:conversation handler: the
Conversation and Message collections plus the fresh-id counter and clock. -/
structure ChatState where
  conversations : List Conversation
  messages : List Message
  nextMessageId : Nat
  now : Nat
deriving DecidableEq, Repr

/-- The socket handler for `message:send:conversation` (src/unnamed/part_000):
look the conversation up, check the sender is a participant, persist the
message, then `conversation.updateLastMessage(message._id)`.  (No unread
counter is touched by this handler.) -/
def messageSendConversation (st : ChatState) (userId : Nat) (conversationId : Nat)
    (content : String) : Except String (ChatState × Message) :=
  match st.conversations.find? (fun c => c.id == conversationId) with
  | none => .error "Cannot read properties of null"
  | some conversation =>
    if ! conversation.participants.contains userId then
      .error "Not authorized"
    else
      let message : Message :=
        { id := st.nextMessageId, sender := userId, conversation := conversationId,
          content := content, messageType := "text", readBy := [],
          isEdited := false, editedAt := none, isDeleted := false,
          deletedAt := none, replyTo := none, createdAt := st.now }
      let conversation' := conversation.updateLastMessage message.id st.now
      .ok ({ st with
              conversations :=
                updateFirst (fun c => c.id == conversationId) (fun _ => conversation')
                  st.conversations,
              messages := st.messages ++ [message],
              nextMessageId := st.nextMessageId + 1 },
            message)

/-- A fresh Conversation document between users 1 and 2, as handed to the
pre-save hook (per-participant arrays not yet initialized). -/
def rawConv : Conversation :=
  { id := 0, participants := [1, 2], lastMessage := none, lastMessageAt := 0,
    unreadCount := [], isArchived := [], isPinned := [], typingUsers := [] }

/-- The saved Conversation between users 1 and 2 after hook initialization. -/
def conv0 : Conversation :=
  { rawConv with
      unreadCount := [{ user := 1, count := 0 }, { user := 2, count := 0 }],
      isArchived := [{ user := 1, archived := false }, { user := 2, archived := false }],
      isPinned := [{ user := 1, pinned := false }, { user := 2, pinned := false }] }

/-- Gateway state holding only `conv0`, before any message is sent. -/
def st0 : ChatState :=
  { conversations := [conv0], messages := [], nextMessageId := 100, now := 5 }

/-- The message the gateway persists when user 1 sends "hi" in `st0`. -/
def message0 : Message :=
  { id := 100, sender := 1, conversation := 0, content := "hi",
    messageType := "text", readBy := [], isEdited := false, editedAt := none,
    isDeleted := false, deletedAt := none, replyTo := none, createdAt := 5 }

/-- Conversation `conv0` after `updateLastMessage` for `message0`. -/
def conv0After : Conversation :=
  { conv0 with lastMessage := some 100, lastMessageAt := 5 }

/-- Gateway state after user 1 sends "hi" in `st0`. -/
def st1 : ChatState :=
  { conversations := [conv0After], messages := [message0], nextMessageId := 101, now := 5 }

/-- A stored Message document used as a concrete instance. -/
def msg0 : Message :=
  { id := 7, sender := 1, conversation := 0, content := "hello",
    messageType := "text", readBy := [], isEdited := false, editedAt := none,
    isDeleted := false, deletedAt := none, replyTo := none, createdAt := 3 }

/-- A Room document with members 1 (owner) and 2 used as a concrete instance. -/
def room0 : Room :=
  { id := 0, name := "general", createdBy := 1, isPrivate := false,
    inviteCode := none,
    members := [{ user := 1, role := "owner", joinedAt := 0 },
                { user := 2, role := "member", joinedAt := 0 }],
    maxMembers := 100, isActive := true, lastActivity := 0 }

/-- A random stream that repeatedly draws the indices of O, 0, I, 1 in the
invite-code alphabet. -/
def ambigRand (i : Nat) : Fin 36 :=
  ⟨[14, 26, 8, 27].getD (i % 4) 0 % 36, Nat.mod_lt _ (by decide)⟩

/-- Finding after an in-place update of the first match: the result is the
image of what was found before, provided `f` preserves the predicate. -/
theorem find?_updateFirst (p : α → Bool) (f : α → α)
    (hf : ∀ x, p x = true → p (f x) = true) (l : List α) :
    (updateFirst p f l).find? p = (l.find? p).map f := by
  induction l with
  | nil => rfl
  | cons x xs ih =>
      by_cases hx : p x = true
      · rw [updateFirst, if_pos hx, List.find?_cons_of_pos _ (hf x hx),
          List.find?_cons_of_pos _ hx]
        rfl
      · rw [updateFirst, if_neg hx, List.find?_cons_of_neg _ hx,
          List.find?_cons_of_neg _ hx, ih]

/-- Replacing the first match of `p` by a constant leaves any projection `g`
of the list unchanged when `g` does not distinguish the found element from
its replacement. -/
theorem map_updateFirst_found (p : α → Bool) (g : α → β) (b a : α) (l : List α)
    (hfind : l.find? p = some a) (hg : g b = g a) :
    (updateFirst p (fun _ => b) l).map g = l.map g := by
  induction l with
  | nil => cases hfind
  | cons x xs ih =>
      by_cases hx : p x = true
      · rw [List.find?_cons_of_pos _ hx] at hfind
        injection hfind with he
        subst he
        rw [updateFirst, if_pos hx]
        simp [hg]
      · rw [List.find?_cons_of_neg _ hx] at hfind
        rw [updateFirst, if_neg hx]
        simp [ih hfind]

/-- Every element of a list is contained in it (Boolean form). -/
theorem all_contains_self (l : List Nat) : (l.all fun p => l.contains p) = true := by
  rw [List.all_eq_true]
  intro x hx
  exact List.elem_iff.mpr hx

/-- Claim C8: for every conversation `c` and user `u`, `incrementUnread(c,u)`
followed by `resetUnread(c,u)` makes `getUnreadCount(c,u)` return 0. -/
theorem incrementUnread_resetUnread_getUnreadCount (c : Conversation) (userId : Nat) :
    ((c.incrementUnread userId).resetUnread userId).getUnreadCount userId = 0 := by
  have hzero : ∀ u : UnreadEntry,
      (fun u : UnreadEntry => u.user == userId) u = true →
      (fun u : UnreadEntry => u.user == userId) { u with count := 0 } = true :=
    fun u hu => hu
  cases hfind : c.unreadCount.find? (fun u => u.user == userId) with
  | some a =>
      have hbump : ∀ u : UnreadEntry,
          (fun u : UnreadEntry => u.user == userId) u = true →
          (fun u : UnreadEntry => u.user == userId) { u with count := u.count + 1 } = true :=
        fun u hu => hu
      rw [Conversation.incrementUnread, hfind]
      rw [Conversation.resetUnread, Conversation.getUnreadCount]
      rw [find?_updateFirst _ _ hzero, find?_updateFirst _ _ hbump, hfind]
      simp
  | none =>
      rw [Conversation.incrementUnread, hfind]
      rw [Conversation.resetUnread, Conversation.getUnreadCount]
      rw [find?_updateFirst _ _ hzero, List.find?_append, hfind, Option.none_or,
        List.find?_cons_of_pos _ (by simp)]
      simp

/-- Claim C10: per-user conversation reads are total and default to
`0`/`false`/`false` for a user with no derived-state entry. -/
theorem conversationDefaults_total (c : Conversation) (userId : Nat)
    (h1 : ∀ e ∈ c.unreadCount, e.user ≠ userId)
    (h2 : ∀ e ∈ c.isArchived, e.user ≠ userId)
    (h3 : ∀ e ∈ c.isPinned, e.user ≠ userId) :
    c.getUnreadCount userId = 0 ∧ c.isArchivedForUser userId = false ∧
      c.isPinnedForUser userId = false := by
  refine ⟨?_, ?_, ?_⟩
  · rw [Conversation.getUnreadCount,
      List.find?_eq_none.mpr (fun e he => by simpa using h1 e he)]
  · rw [Conversation.isArchivedForUser,
      List.find?_eq_none.mpr (fun e he => by simpa using h2 e he)]
  · rw [Conversation.isPinnedForUser,
      List.find?_eq_none.mpr (fun e he => by simpa using h3 e he)]

/-- Witness for C10: user 7 has no entry in `conv0`, so all three reads give
their defaults. -/
theorem conversationDefaults_total_wit :
    conv0.getUnreadCount 7 = 0 ∧ conv0.isArchivedForUser 7 = false ∧
      conv0.isPinnedForUser 7 = false :=
  conversationDefaults_total conv0 7 (by decide) (by decide) (by decide)

/-- Sorting a pair of ids does not depend on their order. -/
theorem jsSortPair_comm (a b : Nat) : jsSortPair a b = jsSortPair b a := by
  unfold jsSortPair
  rcases Nat.lt_trichotomy a b with h | h | h
  · rw [if_pos (Nat.le_of_lt h), if_neg (by omega)]
  · subst h
    simp
  · rw [if_neg (by omega), if_pos (Nat.le_of_lt h)]

/-- The sorted pair is one of the two orderings. -/
theorem jsSortPair_cases (a b : Nat) :
    jsSortPair a b = [a, b] ∨ jsSortPair a b = [b, a] := by
  unfold jsSortPair
  split
  · exact Or.inl rfl
  · exact Or.inr rfl

/-- A conversation whose participants are exactly a two-element list `ps`
satisfies the `$all`/`$size` lookup filter for `ps`. -/
theorem matchesPair_self (ps : List Nat) (c : Conversation)
    (hp : c.participants = ps) (hl : ps.length = 2) : matchesPair ps c = true := by
  unfold matchesPair
  rw [hp, hl, all_contains_self]
  rfl

/-- Creating a conversation from an explicit two-id list succeeds and
initializes both per-participant entries. -/
theorem create_pair_eq (newId now x y : Nat) :
    Conversation.create newId now [x, y] = .ok
      { id := newId, participants := [x, y], lastMessage := none,
        lastMessageAt := now,
        unreadCount := [{ user := x, count := 0 }, { user := y, count := 0 }],
        isArchived := [{ user := x, archived := false }, { user := y, archived := false }],
        isPinned := [{ user := x, pinned := false }, { user := y, pinned := false }],
        typingUsers := [] } := rfl

/-- Creating a conversation from a sorted pair succeeds, and the stored
participants are exactly the sorted pair. -/
theorem create_sorted (newId now a b : Nat) :
    ∃ c, Conversation.create newId now (jsSortPair a b) = .ok c ∧
      c.participants = jsSortPair a b := by
  rcases jsSortPair_cases a b with h | h <;> rw [h] <;>
    exact ⟨_, create_pair_eq newId now _ _, rfl⟩

/-- Claim C2: `findOrCreate` is symmetric in the user pair, and calling it a
second time returns the record produced by the first call without touching
the store — so (A,B) and (B,A) resolve to one record and no duplicate is
ever created. -/
theorem findOrCreate_canonical (s : ConvStore) (now A B : Nat) :
    Conversation.findOrCreate s now A B = Conversation.findOrCreate s now B A ∧
    ∀ c s2, Conversation.findOrCreate s now A B = .ok (c, s2) →
      Conversation.findOrCreate s2 now A B = .ok (c, s2) := by
  constructor
  · unfold Conversation.findOrCreate
    rw [jsSortPair_comm A B]
  · intro c s2 h
    unfold Conversation.findOrCreate at h ⊢
    dsimp only [] at h ⊢
    cases hfind : s.convs.find? (matchesPair (jsSortPair A B)) with
    | some conv =>
        rw [hfind] at h
        simp only [Except.ok.injEq, Prod.mk.injEq] at h
        obtain ⟨hc, hs⟩ := h
        subst hc
        subst hs
        rw [hfind]
    | none =>
        rw [hfind] at h
        obtain ⟨c0, hc0, hcp⟩ := create_sorted s.nextId now A B
        rw [hc0] at h
        simp only [Except.ok.injEq, Prod.mk.injEq] at h
        obtain ⟨hc, hs⟩ := h
        subst hc
        subst hs
        have hlen : (jsSortPair A B).length = 2 := by
          rcases jsSortPair_cases A B with h | h <;> rw [h] <;> rfl
        have hmatch : matchesPair (jsSortPair A B) c0 = true :=
          matchesPair_self _ _ hcp hlen
        simp only [List.find?_append, hfind, Option.none_or,
          List.find?_cons_of_pos _ hmatch]

/-- Witness for C2: on an empty store, both orders of the pair (1,2) give the
same freshly created conversation, and a repeat call returns it unchanged. -/
theorem findOrCreate_canonical_wit :
    Conversation.findOrCreate { convs := [], nextId := 0 } 0 2 1 =
      Conversation.findOrCreate { convs := [], nextId := 0 } 0 1 2 ∧
    Conversation.findOrCreate { convs := [conv0], nextId := 1 } 0 2 1 =
      .ok (conv0, { convs := [conv0], nextId := 1 }) := by
  have h := findOrCreate_canonical { convs := [], nextId := 0 } 0 2 1
  refine ⟨h.1, ?_⟩
  exact h.2 conv0 { convs := [conv0], nextId := 1 } (by rfl)

/-- Claim C3: `addMember` rejects an existing member with the AlreadyMember
error, rejects an addition that would push the member count past
`maxMembers` with the CapacityExceeded error, appends the member otherwise,
and on success keeps the count within `maxMembers` and the user list
duplicate-free. -/
theorem addMember_spec (r : Room) (userId now : Nat) (role : String) :
    (r.isMember userId = true →
      r.addMember userId role now = .error "User is already a member of this room") ∧
    (r.isMember userId = false → r.members.length + 1 > r.maxMembers →
      r.addMember userId role now = .error "Room has reached maximum capacity") ∧
    (r.isMember userId = false → r.members.length + 1 ≤ r.maxMembers →
      r.addMember userId role now = .ok { r with
        members := r.members ++ [{ user := userId, role := role, joinedAt := now }] }) ∧
    (∀ r2, r.addMember userId role now = .ok r2 →
      r2.maxMembers = r.maxMembers ∧ r2.members.length = r.members.length + 1 ∧
      r2.members.length ≤ r2.maxMembers ∧
      ((r.members.map Member.user).Nodup → (r2.members.map Member.user).Nodup)) := by
  refine ⟨?_, ?_, ?_, ?_⟩
  · intro h
    unfold Room.isMember at h
    rw [Room.addMember, if_pos h]
  · intro h hcap
    unfold Room.isMember at h
    rw [Room.addMember, if_neg (by simp [h]), if_pos (by omega)]
  · intro h hcap
    unfold Room.isMember at h
    rw [Room.addMember, if_neg (by simp [h]), if_neg (by omega)]
  · intro r2 h2
    unfold Room.addMember at h2
    by_cases hmem : r.members.any (fun m => m.user == userId) = true
    · rw [if_pos hmem] at h2
      cases h2
    · rw [if_neg hmem] at h2
      by_cases hcap : r.members.length ≥ r.maxMembers
      · rw [if_pos hcap] at h2
        cases h2
      · rw [if_neg hcap] at h2
        simp only [Except.ok.injEq] at h2
        subst h2
        have hmf : r.members.any (fun m => m.user == userId) = false :=
          Bool.eq_false_iff.mpr hmem
        have hmem' : ∀ m ∈ r.members, m.user ≠ userId := by
          intro m hm
          have := List.any_eq_false.mp hmf m hm
          simpa using this
        refine ⟨rfl, by simp, ?_, ?_⟩
        · simp only [List.length_append, List.length_cons, List.length_nil]
          omega
        · intro hnd
          simp only [List.map_append, List.map_cons, List.map_nil]
          rw [List.nodup_append]
          refine ⟨hnd, List.nodup_singleton _, ?_⟩
          intro x hx hx1
          obtain ⟨m, hm, hmu⟩ := List.mem_map.mp hx
          have hxu : x = userId := by simpa using hx1
          exact hmem' m hm (hmu.trans hxu)

/-- Witness for C3: adding user 3 to `room0` (members 1 and 2, capacity 100)
succeeds, appends the member, and preserves both room invariants. -/
theorem addMember_spec_wit :
    room0.addMember 3 "member" 9 = .ok { room0 with
      members := room0.members ++ [{ user := 3, role := "member", joinedAt := 9 }] } ∧
    (({ room0 with
        members := room0.members ++
          [{ user := 3, role := "member", joinedAt := 9 }] } : Room).members.map
      Member.user).Nodup := by
  have h := addMember_spec room0 3 9 "member"
  have hok := h.2.2.1 (by decide) (by decide)
  refine ⟨hok, ?_⟩
  exact (h.2.2.2 _ hok).2.2.2 (by decide)

/-- Claim C7 counterexample: user 3 is not a member of `room0`, yet
`removeMember(3)` does not fail with NotAMember — it succeeds and leaves the
room unchanged. -/
theorem removeMember_no_failure_cex :
    room0.isMember 3 = false ∧ room0.removeMember 3 = .ok room0 := ⟨rfl, rfl⟩

/-- Claim C7 (amended): for a userId absent from the member list,
`updateMemberRole` fails with the NotAMember error, but `removeMember` never
fails — it succeeds and leaves the member list unchanged. -/
theorem removeMember_updateMemberRole_spec (r : Room) (userId : Nat) (newRole : String)
    (h : r.isMember userId = false) :
    r.removeMember userId = .ok r ∧
    r.updateMemberRole userId newRole = .error "User is not a member of this room" := by
  unfold Room.isMember at h
  have hall : ∀ m ∈ r.members, (m.user == userId) = false := by
    intro m hm
    have := List.any_eq_false.mp h m hm
    simpa using this
  constructor
  · have hfil : r.members.filter (fun m => m.user != userId) = r.members := by
      rw [List.filter_eq_self]
      intro m hm
      simp [bne, hall m hm]
    rw [Room.removeMember, hfil]
  · have hfind : r.members.find? (fun m => m.user == userId) = none :=
      List.find?_eq_none.mpr (fun m hm => by simp [hall m hm])
    rw [Room.updateMemberRole, hfind]

/-- Witness for C7 (amended): at `room0` and absent user 3, removal succeeds
unchanged and the role update fails with the NotAMember error. -/
theorem removeMember_updateMemberRole_spec_wit :
    room0.removeMember 3 = .ok room0 ∧
    room0.updateMemberRole 3 "admin" = .error "User is not a member of this room" :=
  removeMember_updateMemberRole_spec room0 3 "admin" (by rfl)

/-- Every message returned by `getRecentMessages` has a clear deleted flag:
the listing filters on `isDeleted: false`. -/
theorem getRecentMessages_not_deleted (store : List Message)
    (conversationId limit : Nat) (x : Message)
    (hx : x ∈ Message.getRecentMessages store conversationId limit) :
    x.isDeleted = false := by
  unfold Message.getRecentMessages at hx
  have hx2 := List.mem_of_mem_take hx
  have hx3 := List.mem_mergeSort.mp hx2
  have hx4 := List.of_mem_filter hx3
  simp only [Bool.and_eq_true, beq_iff_eq] at hx4
  exact hx4.2

/-- Claim C4: `softDelete` replaces the content with the fixed tombstone and
sets the deleted flag and timestamp; after saving, the message is excluded
from every `recentMessages` listing but is still fetchable by id. -/
theorem softDelete_spec (store : List Message) (mid now : Nat) (m : Message)
    (hfind : Message.findById store mid = some m) :
    (m.softDelete now).content = "This message was deleted" ∧
    (m.softDelete now).isDeleted = true ∧
    (m.softDelete now).deletedAt = some now ∧
    (∀ conversationId limit,
      (m.softDelete now) ∉
        Message.getRecentMessages (saveMessage store mid (fun x => x.softDelete now))
          conversationId limit) ∧
    Message.findById (saveMessage store mid (fun x => x.softDelete now)) mid =
      some (m.softDelete now) := by
  refine ⟨rfl, rfl, rfl, ?_, ?_⟩
  · intro conversationId limit hmem
    have := getRecentMessages_not_deleted _ _ _ _ hmem
    simp [Message.softDelete] at this
  · unfold Message.findById at hfind ⊢
    unfold saveMessage
    rw [find?_updateFirst (fun x => x.id == mid) (fun x => x.softDelete now)
      (fun x hx => hx) store, hfind]
    rfl

/-- Witness for C4: soft-deleting `msg0` in a one-message store leaves it out
of the conversation's recent messages while `findById` still returns it. -/
theorem softDelete_spec_wit :
    (msg0.softDelete 9).content = "This message was deleted" ∧
    (msg0.softDelete 9) ∉
      Message.getRecentMessages (saveMessage [msg0] 7 (fun x => x.softDelete 9)) 0 50 ∧
    Message.findById (saveMessage [msg0] 7 (fun x => x.softDelete 9)) 7 =
      some (msg0.softDelete 9) := by
  have h := softDelete_spec [msg0] 7 9 msg0 (by rfl)
  exact ⟨h.1, h.2.2.2.1 0 50, h.2.2.2.2⟩

/-- Claim C6: saving a conversation whose participant count is not 2 fails
with the fixed error, a successful save always carries exactly 2
participants, and first-time saves initialize all three per-participant
derived-state entries together for both participants. -/
theorem conversationPreSave_spec (c : Conversation) (isNew : Bool) :
    (c.participants.length ≠ 2 →
      conversationPreSave isNew c =
        .error "Conversation must have exactly 2 participants") ∧
    (∀ c2, conversationPreSave isNew c = .ok c2 → c2.participants.length = 2) ∧
    (∀ a b, c.participants = [a, b] →
      conversationPreSave true c = .ok { c with
        unreadCount := [{ user := a, count := 0 }, { user := b, count := 0 }],
        isArchived := [{ user := a, archived := false }, { user := b, archived := false }],
        isPinned := [{ user := a, pinned := false }, { user := b, pinned := false }] }) := by
  refine ⟨?_, ?_, ?_⟩
  · intro h
    rw [conversationPreSave, if_pos h]
  · intro c2 h2
    unfold conversationPreSave at h2
    by_cases hl : c.participants.length ≠ 2
    · rw [if_pos hl] at h2
      cases h2
    · rw [if_neg hl] at h2
      have hl2 : c.participants.length = 2 := by omega
      cases isNew with
      | true =>
          rw [if_pos rfl] at h2
          simp only [Except.ok.injEq] at h2
          subst h2
          exact hl2
      | false =>
          rw [if_neg (by simp)] at h2
          simp only [Except.ok.injEq] at h2
          subst h2
          exact hl2
  · intro a b hab
    rw [conversationPreSave, if_neg (by rw [hab]; simp), if_pos rfl, hab]
    rfl

/-- Witness for C6: a three-participant save fails; saving the fresh
two-participant document yields exactly the initialized `conv0`. -/
theorem conversationPreSave_spec_wit :
    conversationPreSave true { rawConv with participants := [1, 2, 3] } =
      .error "Conversation must have exactly 2 participants" ∧
    conversationPreSave true rawConv = .ok conv0 := by
  have h1 := (conversationPreSave_spec { rawConv with participants := [1, 2, 3] } true).1
    (by decide)
  have h3 := (conversationPreSave_spec rawConv true).2.2 1 2 (by rfl)
  exact ⟨h1, h3⟩

/-- Claim C9 counterexample: the invite-code alphabet is the full uppercase
alphanumeric set, which contains the visually ambiguous characters O, 0, I
and 1, and a generated code can contain all of them. -/
theorem generateInviteCode_ambiguous_cex :
    generateInviteCode ambigRand = "O0I1O0I1" ∧
    'O' ∈ inviteChars ∧ '0' ∈ inviteChars ∧ 'I' ∈ inviteChars ∧ '1' ∈ inviteChars := by
  refine ⟨by rfl, by decide, by decide, by decide, by decide⟩

/-- Claim C9 (amended): `generateInviteCode` always produces exactly 8
characters, each drawn from the fixed 36-character alphabet A-Z0-9. -/
theorem generateInviteCode_spec (rand : Nat → Fin 36) :
    (generateInviteCode rand).length = 8 ∧
    ((generateInviteCode rand).data.all fun ch => inviteChars.contains ch) = true := by
  constructor
  · simp [generateInviteCode, String.length]
  · rw [List.all_eq_true]
    intro ch hch
    have hmem : ch ∈ (List.range 8).map fun i => inviteChars.getD (rand i).val 'A' := hch
    obtain ⟨i, _, hi⟩ := List.mem_map.mp hmem
    have hall : ∀ v : Fin 36, inviteChars.contains (inviteChars.getD v.val 'A') = true := by
      decide
    rw [← hi]
    exact hall (rand i)

/-- Finding a conversation by id after replacing the found one by its
`updateLastMessage` image: the replacement is what is found, since it keeps
the id. -/
theorem find?_id_updateLastMessage (cid mid now : Nat) (conv : Conversation)
    (l : List Conversation) (hp : (conv.id == cid) = true) :
    (updateFirst (fun c => c.id == cid)
        (fun _ => conv.updateLastMessage mid now) l).find? (fun c => c.id == cid) =
      (l.find? fun c => c.id == cid).map fun _ => conv.updateLastMessage mid now :=
  find?_updateFirst (fun c => c.id == cid) (fun _ => conv.updateLastMessage mid now)
    (fun _ _ => hp) l

/-- Claim C1: a successful conversation send persists the message and updates
the conversation's last-message reference and timestamp, but leaves every
conversation's unreadCount array exactly as it was — no participant's unread
count is incremented. -/
theorem messageSendConversation_spec (st : ChatState) (userId conversationId : Nat)
    (content : String) (st2 : ChatState) (msg : Message)
    (h : messageSendConversation st userId conversationId content = .ok (st2, msg)) :
    st2.messages = st.messages ++ [msg] ∧
    ((st2.conversations.find? fun c => c.id == conversationId).map
      fun c => (c.lastMessage, c.lastMessageAt)) = some (some msg.id, st.now) ∧
    st2.conversations.map Conversation.unreadCount =
      st.conversations.map Conversation.unreadCount := by
  unfold messageSendConversation at h
  cases hfind : st.conversations.find? (fun c => c.id == conversationId) with
  | none =>
      rw [hfind] at h
      cases h
  | some conv =>
      rw [hfind] at h
      dsimp only [] at h
      cases hpart : conv.participants.contains userId with
      | false =>
          rw [hpart] at h
          simp only [Bool.not_false, if_pos rfl] at h
          cases h
      | true =>
          rw [hpart] at h
          simp only [Bool.not_true, Bool.false_eq_true, if_false] at h
          simp only [Except.ok.injEq, Prod.mk.injEq] at h
          obtain ⟨hst, hmsg⟩ := h
          subst hst
          subst hmsg
          have hp : (conv.id == conversationId) = true := by
            have := List.find?_some hfind
            exact this
          refine ⟨rfl, ?_, ?_⟩
          · rw [find?_id_updateLastMessage conversationId _ _ conv st.conversations hp,
              hfind]
            rfl
          · exact map_updateFirst_found _ Conversation.unreadCount _ conv
              st.conversations hfind rfl

/-- Witness for C1 at the failing input: user 1 sends "hi" in the fresh
conversation with user 2; the message is persisted and the last-message
reference updated, yet user 2's unread count is still 0, not 1. -/
theorem messageSendConversation_spec_wit :
    st1.conversations.map Conversation.unreadCount =
      st0.conversations.map Conversation.unreadCount ∧
    conv0After.getUnreadCount 2 = 0 ∧
    st1.messages = st0.messages ++ [message0] := by
  have h := messageSendConversation_spec st0 1 0 "hi" st1 message0 (by rfl)
  exact ⟨h.2.2, by rfl, h.1⟩

/-- Claim C5: `markAsRead` is idempotent — starting from a message where the
user has at most one read entry, marking twice leaves exactly one entry for
that user, and a single mark preserves the at-most-once invariant for every
reader. -/
theorem markAsRead_idempotent (m : Message) (userId t1 t2 : Nat) :
    (m.readEntriesFor userId ≤ 1 →
      ((m.markAsRead userId t1).markAsRead userId t2).readEntriesFor userId = 1) ∧
    ((∀ v, m.readEntriesFor v ≤ 1) →
      ∀ v, (m.markAsRead userId t1).readEntriesFor v ≤ 1) := by
  by_cases hm : m.readBy.any (fun r => r.user == userId) = true
  · have hmark : m.markAsRead userId t1 = m := by
      rw [Message.markAsRead, if_pos hm]
    have hmark2 : m.markAsRead userId t2 = m := by
      rw [Message.markAsRead, if_pos hm]
    have hpos : 1 ≤ m.readEntriesFor userId := by
      obtain ⟨x, hxmem, hx⟩ := List.any_eq_true.mp hm
      have : x ∈ m.readBy.filter (fun r => r.user == userId) :=
        List.mem_filter.mpr ⟨hxmem, hx⟩
      have := List.length_pos.mpr (List.ne_nil_of_mem this)
      exact this
    constructor
    · intro hle
      rw [hmark, hmark2]
      exact Nat.le_antisymm hle hpos
    · intro hinv v
      rw [hmark]
      exact hinv v
  · have hm' : m.readBy.any (fun r => r.user == userId) = false := by
      simpa using hm
    have hnil : m.readBy.filter (fun r => r.user == userId) = [] := by
      rw [List.filter_eq_nil_iff]
      exact fun a ha => List.any_eq_false.mp hm' a ha
    have hmark : m.markAsRead userId t1 =
        { m with readBy := m.readBy ++ [{ user := userId, readAt := t1 }] } := by
      rw [Message.markAsRead, if_neg (by simp [hm'])]
    constructor
    · intro _
      have hone : (m.markAsRead userId t1).readEntriesFor userId = 1 := by
        rw [hmark, Message.readEntriesFor]
        simp [List.filter_append, hnil]
      have hany2 : (m.markAsRead userId t1).readBy.any
          (fun r => r.user == userId) = true := by
        rw [hmark]
        refine List.any_eq_true.mpr ⟨{ user := userId, readAt := t1 }, ?_, by simp⟩
        simp
      rw [Message.markAsRead, if_pos hany2]
      exact hone
    · intro hinv v
      rw [hmark, Message.readEntriesFor]
      rw [List.filter_append]
      by_cases hv : userId = v
      · subst hv
        simp [hnil]
      · have hfalse : (({ user := userId, readAt := t1 } : ReadEntry).user == v) = false := by
          simpa using hv
        simp only [List.filter_cons, hfalse, cond_false, List.filter_nil,
          List.append_nil]
        simpa [Message.readEntriesFor] using hinv v

/-- Witness for C5: user 2 has no read entry on `msg0`; two marks leave one
entry, and a mark keeps every reader's entry count at most one. -/
theorem markAsRead_idempotent_wit :
    ((msg0.markAsRead 2 4).markAsRead 2 5).readEntriesFor 2 = 1 ∧
      (msg0.markAsRead 2 4).readEntriesFor 5 ≤ 1 :=
  ⟨(markAsRead_idempotent msg0 2 4 5).1 (by decide),
   (markAsRead_idempotent msg0 2 4 5).2
     (fun v => by simp [Message.readEntriesFor, msg0]) 5⟩

end Chat
